import Mathlib

/-!
Verification development for the Wildberries category-frequency parser
(src/webhook.js). The JavaScript source is shallowly embedded: pure
computations become Lean functions, external effects (HTTP calls, Telegram
messages, the file system) are abstracted as oracles whose outcomes are
either a value or a thrown exception, and the orchestrator's control flow
(try / catch / finally, the page loop) is transcribed branch by branch.
-/

namespace WB

/-- Outcome of one external (await-ed) call: a value, or a thrown error. -/
inductive ExtRes (α : Type) where
  | ok (a : α)
  | err
deriving DecidableEq

def ExtRes.isOk {α : Type} : ExtRes α → Bool
  | .ok _ => true
  | .err => false

instance exceptDecEq {ε α : Type} [DecidableEq ε] [DecidableEq α] :
    DecidableEq (Except ε α) := fun x y =>
  match x, y with
  | .ok a, .ok b =>
      if h : a = b then .isTrue (by rw [h]) else .isFalse (by simp [h])
  | .error a, .error b =>
      if h : a = b then .isTrue (by rw [h]) else .isFalse (by simp [h])
  | .ok _, .error _ => .isFalse (by simp)
  | .error _, .ok _ => .isFalse (by simp)

/-! ## EvirmaClient (src/webhook.js lines 175-251)

A keyword entry's `cluster` field in the JSON response is either missing
(key absent, i.e. `undefined`), literally `null`, or an object carrying an
optional `product_count` and an optional `freq_syn.monthly` number. -/

/-- The value of one keyword's `cluster` field in the Evirma response.
`cval pc fm` carries `product_count` (`none` = field absent) and
`freq_syn.monthly` (`none` = `freq_syn` or `monthly` absent). -/
inductive CVal where
  | missing
  | cnull
  | cval (productCount : Option Int) (freqMonthly : Option Int)
deriving DecidableEq

/-- One report row, as pushed by `parseEvirmaResponse`
(fields Название / Количество товара / Частота товара). -/
structure Row where
  term : String
  productCount : Int
  monthlyFrequency : Int
deriving DecidableEq

/-- JavaScript truthiness of an optional number: `undefined` and `0` are
falsy, every other integer (negative ones included) is truthy. -/
def truthyNum : Option Int → Bool
  | none => false
  | some v => v != 0

/-- The response filtering inside `queryEvirmaApi` (lines 208-219): keep the
entries whose `cluster !== null` (an absent cluster, being `undefined`, is
kept by this strict comparison), then return the filtered mapping when it is
non-empty and the sentinel `null` (here `none`) otherwise. A transport
failure is distinct: it is a thrown error, not this sentinel. -/
def queryEvirmaFilter (kws : List (String × CVal)) : Option (List (String × CVal)) :=
  let f := kws.filter fun kd => kd.2 != CVal.cnull
  if f.length != 0 then some f else none

/-- `parseEvirmaResponse` (lines 232-250): skip entries whose cluster is
falsy (missing or null) or whose `product_count` or `freq_syn?.monthly` is
falsy; push a row for the rest, in response order. -/
def parseEvirmaResponse (kws : List (String × CVal)) : List Row :=
  kws.filterMap fun kd =>
    match kd.2 with
    | .missing => none
    | .cnull => none
    | .cval pc fm =>
      if !(truthyNum pc) || !(truthyNum fm) then none
      else some ⟨kd.1, pc.getD 0, fm.getD 0⟩

/-- Rows a single page contributes end to end: `queryEvirmaApi`'s filtering
followed by `parseEvirmaResponse`; the sentinel page contributes no rows
(the orchestrator breaks before parsing). -/
def pageRows (kws : List (String × CVal)) : List Row :=
  match queryEvirmaFilter kws with
  | none => []
  | some f => parseEvirmaResponse f

/-- Spec-side row function for claim C4 as amended: discard entries whose
cluster is missing or null, or whose product count or monthly frequency is
missing or zero; map the survivors to rows. -/
def specRowC4 : String × CVal → Option Row
  | (k, CVal.cval (some pc) (some fm)) =>
      if pc ≠ 0 ∧ fm ≠ 0 then some ⟨k, pc, fm⟩ else none
  | _ => none

/-! ## Category tree and flattening (src/webhook.js lines 289-327) -/

/-- The JavaScript `x || null` coercion on an optional string field: an
absent field stays absent, and an empty string (falsy) becomes `null`. -/
def jsOrNull : Option String → Option String
  | none => none
  | some s => if s = "" then none else some s

/-- A flattened category entry as pushed by `extractCategoryData`:
`{name, shard: node.shard || null, url, query: node.query || null}`. -/
structure Category where
  name : String
  shard : Option String
  url : String
  query : Option String
deriving DecidableEq

/-- A node of the untyped catalog JSON: a non-object scalar (ignored by
`processNode`), an array, or an object with the four optional fields and a
`childs` list (`[]` models both an absent `childs` and an empty array, which
the guard `node.childs && Array.isArray(node.childs)` treats identically). -/
inductive JTree where
  | prim
  | arr (items : List JTree)
  | obj (name shard url query : Option String) (childs : List JTree)

mutual

/-- `processNode` (lines 292-315): arrays recurse element-wise; an object
with both a `name` and a `url` key pushes a category; `childs` are visited
either way. -/
def processNode : JTree → List Category
  | .prim => []
  | .arr items => processList items
  | .obj name shard url query childs =>
      (match name, url with
       | some nm, some u => [⟨nm, jsOrNull shard, u, jsOrNull query⟩]
       | _, _ => []) ++ processList childs

def processList : List JTree → List Category
  | [] => []
  | t :: ts => processNode t ++ processList ts

end

/-- `extractCategoryData` (lines 289-327): a top-level array is processed
element-wise, anything else is processed as a single node. -/
def extractCategoryData : JTree → List Category
  | .arr items => processList items
  | t => processNode t

mutual

/-- Depth-first pre-order enumeration of the object nodes of a tree: a node
before its children, siblings and array elements in input order. Used as
the specification-side traversal for claim C8. -/
def dfsNodes : JTree → List JTree
  | .prim => []
  | .arr items => dfsList items
  | .obj name shard url query childs =>
      JTree.obj name shard url query childs :: dfsList childs

def dfsList : List JTree → List JTree
  | [] => []
  | t :: ts => dfsNodes t ++ dfsList ts

end

/-- The category an object node contributes, when it carries both a `name`
and a `url` key; scalar and array nodes contribute nothing. -/
def nodeToCat : JTree → Option Category
  | .obj name shard url query _ =>
      match name, url with
      | some nm, some u => some ⟨nm, jsOrNull shard, u, jsOrNull query⟩
      | _, _ => none
  | _ => none

/-! ## URL parsing and category resolution (src/webhook.js lines 329-392)

`new URL(url)` is modelled just far enough for the `pathname` and
`searchParams` the resolver reads: scheme://host, then the path up to `?`,
then `&`-separated `key=value` pairs (no percent-decoding — the resolver's
inputs contain none). -/

/-- The suffix after the first occurrence of `pat`, or `none`. -/
def afterSub (pat : List Char) : List Char → Option (List Char)
  | [] => if pat = [] then some [] else none
  | c :: rest =>
      if pat.isPrefixOf (c :: rest) then some ((c :: rest).drop pat.length)
      else afterSub pat rest

/-- Split a list at the first occurrence of `c`; the separator is dropped
from the second component. -/
def breakAt (c : Char) (l : List Char) : List Char × List Char :=
  (l.takeWhile (· ≠ c), (l.dropWhile (· ≠ c)).drop 1)

/-- One `key=value` pair of a query string (a segment without `=` gets the
empty value, as `URLSearchParams` does). -/
def parsePair (seg : List Char) : String × String :=
  let p := breakAt '=' seg
  (⟨p.1⟩, ⟨p.2⟩)

def splitAmpAux : List Char → List Char → List (List Char)
  | [], cur => [cur.reverse]
  | c :: rest, cur =>
      if c = '&' then cur.reverse :: splitAmpAux rest []
      else splitAmpAux rest (c :: cur)

/-- Split on every ampersand (as the query string is split into
`key=value` segments). -/
def splitAmp (l : List Char) : List (List Char) :=
  splitAmpAux l []

/-- The `pathname` and `searchParams` of a URL. -/
structure UrlParts where
  pathname : String
  params : List (String × String)
deriving DecidableEq

/-- Parse `scheme://host/path?query` into its pathname and query pairs;
`none` when the `://` marker is missing (where `new URL` would throw). -/
def parseUrl (url : String) : Option UrlParts :=
  match afterSub "://".toList url.toList with
  | none => none
  | some rest =>
      let hostSplit := (rest.takeWhile (· ≠ '/'), rest.dropWhile (· ≠ '/'))
      let pq := breakAt '?' hostSplit.2
      let path := if pq.1 = [] then "/" else (⟨pq.1⟩ : String)
      let pairs := if pq.2 = [] then [] else (splitAmp pq.2).map parsePair
      some ⟨path, pairs⟩

/-- `searchParams.get(key) || null` (lines 342-346): the first pair with
this key, with an empty value coerced to `null` by the `||`. -/
def getParam (ps : List (String × String)) (key : String) : Option String :=
  match ps.lookup key with
  | none => none
  | some v => if v = "" then none else some v

/-- The `filterParams` object (lines 341-347). `sort` is already defaulted
to `"popular"` by its `|| "popular"`. -/
structure FilterParams where
  priceU : Option String
  xsubject : Option String
  fbrand : Option String
  fsupplier : Option String
  sort : String
deriving DecidableEq

def extractFilterParams (ps : List (String × String)) : FilterParams :=
  { priceU := getParam ps "priceU"
    xsubject := getParam ps "xsubject"
    fbrand := getParam ps "fbrand"
    fsupplier := getParam ps "fsupplier"
    sort := (getParam ps "sort").getD "popular" }

/-- One `if (filterParams.k) query += "&k=" + v` step (lines 369-374). -/
def appOpt (q : String) (label : String) (v : Option String) : String :=
  match v with
  | some x => q ++ label ++ x
  | none => q

/-- The query merging of `findCategoryByUrl` (lines 367-375): start from
`category.query || ""`, append each truthy filter value prefixed by
`&key=`, in the order priceU, xsubject, fbrand, fsupplier, sort (the last
guarded by `if (filterParams.sort)`, i.e. appended whenever non-empty). -/
def buildQuery (base : Option String) (fp : FilterParams) : String :=
  let q := base.getD ""
  let q := appOpt q "&priceU=" fp.priceU
  let q := appOpt q "&xsubject=" fp.xsubject
  let q := appOpt q "&fbrand=" fp.fbrand
  let q := appOpt q "&fsupplier=" fp.fsupplier
  if fp.sort ≠ "" then q ++ "&sort=" ++ fp.sort else q

/-- A resolved category: the matched node's fields with the merged query
string (`{...category, query}` at lines 377-380). -/
structure ResolvedCategory where
  name : String
  shard : Option String
  url : String
  query : String
deriving DecidableEq

/-- ASCII lowercasing of one character, as `toLowerCase` acts on the ASCII
paths being compared. -/
def lowerChar (c : Char) : Char :=
  if 65 ≤ c.toNat ∧ c.toNat ≤ 90 then Char.ofNat (c.toNat + 32) else c

/-- Path normalization of the matcher (lines 358-362): lowercase, then strip
every trailing slash. -/
def normPath (s : String) : String :=
  ⟨(((s.toList.map lowerChar).reverse).dropWhile (· = '/')).reverse⟩

/-- `findCategoryByUrl` (lines 329-392) over an already-fetched catalog:
parse the URL (a parse failure models the thrown error), flatten the
catalog, find the first node whose normalized url equals the normalized
pathname, and merge the filter parameters into its query; `.ok none` is the
"category not found" outcome. -/
def findCategoryByUrl (catalog : JTree) (url : String) :
    Except Unit (Option ResolvedCategory) :=
  match parseUrl url with
  | none => .error ()
  | some up =>
      let fp := extractFilterParams up.params
      let cats := extractCategoryData catalog
      match cats.find? fun c => normPath c.url = normPath up.pathname with
      | some c => .ok (some ⟨c.name, c.shard, c.url, buildQuery c.query fp⟩)
      | none => .ok none

/-- Spec-side merged query for claim C7 as amended: append, to the node's
base query (empty when null), each recognized filter key that appears in
the URL with a non-empty value, as `&key=value` in the fixed order priceU,
xsubject, fbrand, fsupplier, sort, with sort defaulting to `popular` when
absent or empty. -/
def segC7 (ps : List (String × String)) (k : String) : String :=
  match ps.lookup k with
  | some v => if v = "" then "" else "&" ++ k ++ "=" ++ v
  | none => ""

def sortValC7 (ps : List (String × String)) : String :=
  match ps.lookup "sort" with
  | some v => if v = "" then "popular" else v
  | none => "popular"

def specMergeQueryC7 (base : Option String) (ps : List (String × String)) : String :=
  base.getD "" ++ segC7 ps "priceU" ++ segC7 ps "xsubject" ++ segC7 ps "fbrand" ++
    segC7 ps "fsupplier" ++ "&sort=" ++ sortValC7 ps

/-- The merged query the text of claim C7 predicts, reading "present in the
URL" as the key merely appearing in the query string: every present key is
appended as `&key=value` (even with an empty value), sort defaulting to
`popular` only when the key is absent. -/
def claimMergeQueryC7 (base : Option String) (ps : List (String × String)) : String :=
  let seg := fun (k : String) =>
    match ps.lookup k with
    | some v => "&" ++ k ++ "=" ++ v
    | none => ""
  let sortVal :=
    match ps.lookup "sort" with
    | some v => v
    | none => "popular"
  base.getD "" ++ seg "priceU" ++ seg "xsubject" ++ seg "fbrand" ++
    seg "fsupplier" ++ "&sort=" ++ sortVal

/-- The category tree of the resolver end-to-end scenario (claim C6). -/
def treeDomVannaya : JTree :=
  .arr [.obj (some "Dom") none (some "/catalog/dom") none
          [.obj (some "Vannaya") none (some "/catalog/dom/vannaya") none []]]

def urlVannaya : String := "https://x/catalog/dom/vannaya?sort=newly"

def urlVannayaEmptyPriceU : String :=
  "https://x/catalog/dom/vannaya?priceU=&sort=newly"

/-! ## Paginated scraper (src/webhook.js lines 394-455) -/

/-- The character of one decimal digit. -/
def digitChar : Nat → Char
  | 0 => '0' | 1 => '1' | 2 => '2' | 3 => '3' | 4 => '4'
  | 5 => '5' | 6 => '6' | 7 => '7' | 8 => '8' | _ => '9'

/-- Decimal digits with explicit fuel (structural recursion, so that
concrete URLs evaluate definitionally); `fuel = n + 1` always suffices. -/
def natDigitsAux : Nat → Nat → List Char
  | 0, _ => []
  | fuel + 1, n =>
      if n < 10 then [digitChar n]
      else natDigitsAux fuel (n / 10) ++ [digitChar (n % 10)]

/-- Decimal digit characters of a natural number, as a JavaScript template
literal renders it. -/
def natDigits (n : Nat) : List Char :=
  natDigitsAux (n + 1) n

def natToStr (n : Nat) : String := ⟨natDigits n⟩

/-- The product-page request URL of `scrapeWbPage` (line 395): fixed
`appType/curr/dest/locale` parameters, the page number, a fixed
`sort=popular`, `spp=0`, and then the merged category query. -/
def buildScrapeUrl (shard : String) (query : String) (page : Nat) : String :=
  "https://catalog.wb.ru/catalog/" ++ shard ++
    "/catalog?appType=1&curr=rub&dest=-1257786&locale=ru&page=" ++
    natToStr page ++ "&sort=popular&spp=0&" ++ query

/-- Outcome of one HTTP GET attempt inside `scrapeWbPage`: a product list
(each product's optional `name` field), a 429 status, another HTTP error
status with an optional response body, or a network error with no
response. -/
inductive AttRes where
  | ok (products : List (Option String))
  | rate429
  | httpErr (status : Nat) (body : Option String)
  | netErr
deriving DecidableEq

/-- Timed events of one `scrapeWbPage` call: the i-th request (0-based) and
a `setTimeout` wait of the given milliseconds. -/
inductive SEv where
  | req (i : Nat)
  | wait (ms : Nat)
deriving DecidableEq

/-- Oracle for one `scrapeWbPage` call: the result of each attempt and the
outcomes of the Telegram notifications sent on the 429 path. -/
structure ScrapeEnv where
  att : Nat → AttRes
  send : Nat → ExtRes Unit
  edit : Nat → ExtRes Unit

/-- Result of `scrapeWbPage`: the response products (after the pacing
sleep), or one of its thrown errors — retries exhausted (naming the page
and the attempt count), a non-429 failure (carrying the page, the status
when a response exists and the body when present), or a Telegram call
throwing inside the 429 handler. -/
inductive ScrapeRes where
  | success (products : List (Option String))
  | failExhausted (page : Nat) (attempts : Nat)
  | failOther (page : Nat) (status : Option Nat) (body : Option String)
  | failMsg
deriving DecidableEq

/-- The retry loop of `scrapeWbPage` (lines 397-450): `while attempt <
MAX_RETRIES`, on 429 notify, wait 30 s, edit the notification and retry; on
any other error throw at once; after the loop throw the exhausted error. -/
def scrapeAux (env : ScrapeEnv) (page : Nat) : Nat → Nat → List SEv × ScrapeRes
  | 0, _ => ([], .failExhausted page 6)
  | fuel + 1, attempt =>
      match env.att attempt with
      | .ok prods =>
          let pace := if page % 10 = 0 then 10000 else 2000
          ([.req attempt, .wait pace], .success prods)
      | .rate429 =>
          match env.send attempt with
          | .err => ([.req attempt], .failMsg)
          | .ok _ =>
              match env.edit attempt with
              | .err => ([.req attempt, .wait 30000], .failMsg)
              | .ok _ =>
                  let rest := scrapeAux env page fuel (attempt + 1)
                  (.req attempt :: .wait 30000 :: rest.1, rest.2)
      | .httpErr s b => ([.req attempt], .failOther page (some s) b)
      | .netErr => ([.req attempt], .failOther page none none)

/-- `scrapeWbPage` with `MAX_RETRIES = 6` and `attempt = 0`. -/
def scrapeWbPage (env : ScrapeEnv) (page : Nat) : List SEv × ScrapeRes :=
  scrapeAux env page 6 0

/-- The event trace of `k` consecutive rate-limited attempts starting at
attempt index `a`: each request followed by the fixed 30-second wait. -/
def wait30Trace : Nat → Nat → List SEv
  | 0, _ => []
  | k + 1, a => .req a :: .wait 30000 :: wait30Trace k (a + 1)

/-! ## Session orchestrator `parseCategory` (src/webhook.js lines 463-558) -/

/-- `processProducts` (lines 457-461): keep the products that have a `name`
field and map to the names. -/
def processProducts (l : List (Option String)) : List String :=
  l.filterMap id

/-- Events of one session's page loop: page `p` was scraped (the queued
`scrapeWbPageWithQueue` call was made), page `p` was enriched
(`queryEvirmaApi` was called). -/
inductive Ev where
  | scr (p : Nat)
  | enr (p : Nat)
deriving DecidableEq

def Ev.pageOf : Ev → Nat
  | .scr p => p
  | .enr p => p

/-- The JavaScript value `parseCategory` resolves with: the literal `true`,
the literal `false`, or the Telegram message object returned on the
zero-row path (`return await bot.sendMessage(...)`, lines 522-528) — an
object, hence truthy, but not the boolean `true`. -/
inductive PRes where
  | rTrue
  | rFalse
  | rMsg
deriving DecidableEq

/-- JavaScript truthiness of the resolved value. -/
def PRes.truthy : PRes → Bool
  | .rFalse => false
  | _ => true

/-- Oracle for one `parseCategory` call: each external step either yields a
value or throws. `scrape` abstracts `scrapeWbPageWithQueue` (its value is
`response.data.data.products`, each with an optional name); `evirma`
abstracts the transport part of `queryEvirmaApi` (its value is the raw
keyword mapping of the last response, to which the in-code filtering is
applied; `.err` is the error thrown after its own retries). -/
structure Env where
  resolve : ExtRes (Option ResolvedCategory)
  scrape : Nat → ExtRes (List (Option String))
  updateLog : Nat → ExtRes Unit
  evirma : Nat → ExtRes (List (String × CVal))
  sendInner : Nat → ExtRes Unit
  sendOuter : Nat → ExtRes Unit
  sendZeroRows : ExtRes Unit
  saveExcel : ExtRes (Option String)
  sendExcel : ExtRes Unit

/-- Output of the page loop: the events it performed, the accumulated rows,
and whether an exception escaped the loop into the outer catch. -/
structure LoopOut where
  trace : List Ev
  rows : List Row
  escaped : Bool
deriving DecidableEq

/-- The `for (page = 1..50)` loop of `parseCategory` (lines 486-520),
transcribed branch by branch. A scrape or log failure is caught by the
per-page catch, which sends a message and breaks — unless that send itself
throws, which escapes to the outer catch. A `queryEvirmaApi` throw is
caught by the inner catch (lines 503-508); its send, if it throws, is
caught by the per-page catch. The sentinel `null` from `queryEvirmaApi`
breaks the loop (line 502). -/
def loopAux (env : Env) : Nat → Nat → List Row → LoopOut
  | 0, _, acc => ⟨[], acc, false⟩
  | fuel + 1, page, acc =>
      match env.scrape page with
      | .err =>
          match env.sendOuter page with
          | .ok _ => ⟨[.scr page], acc, false⟩
          | .err => ⟨[.scr page], acc, true⟩
      | .ok data =>
          match env.updateLog page with
          | .err =>
              match env.sendOuter page with
              | .ok _ => ⟨[.scr page], acc, false⟩
              | .err => ⟨[.scr page], acc, true⟩
          | .ok _ =>
              if (processProducts data).isEmpty then ⟨[.scr page], acc, false⟩
              else
                match env.evirma page with
                | .err =>
                    match env.sendInner page with
                    | .ok _ => ⟨[.scr page, .enr page], acc, false⟩
                    | .err =>
                        match env.sendOuter page with
                        | .ok _ => ⟨[.scr page, .enr page], acc, false⟩
                        | .err => ⟨[.scr page, .enr page], acc, true⟩
                | .ok kws =>
                    match queryEvirmaFilter kws with
                    | none => ⟨[.scr page, .enr page], acc, false⟩
                    | some f =>
                        let out := loopAux env fuel (page + 1) (acc ++ parseEvirmaResponse f)
                        ⟨.scr page :: .enr page :: out.trace, out.rows, out.escaped⟩

def MAX_PAGES : Nat := 50

/-- What one `parseCategory` call produced: its resolved value, the active
set afterwards, `this.results` afterwards, and the loop's event trace. -/
structure POut where
  res : PRes
  active : Finset Nat
  results : List Row
  trace : List Ev
deriving DecidableEq

/-- The try / catch body of `parseCategory` (lines 476-557): resolution, the
page loop, and the reporting tail, producing the resolved value, the final
`this.results` and the loop trace. It does not touch the active set — that
is the `finally` clause's job, in `parseCategory` below. -/
def parseCategoryBody (env : Env) : PRes × List Row × List Ev :=
  match env.resolve with
  | .err => (.rFalse, [], [])
  | .ok none => (.rFalse, [], [])
  | .ok (some _) =>
      let lo := loopAux env MAX_PAGES 1 []
      if lo.escaped then (.rFalse, lo.rows, lo.trace)
      else if lo.rows.isEmpty then
        match env.sendZeroRows with
        | .ok _ => (.rMsg, lo.rows, lo.trace)
        | .err => (.rFalse, lo.rows, lo.trace)
      else
        match env.saveExcel with
        | .err => (.rFalse, lo.rows, lo.trace)
        | .ok none => (.rTrue, lo.rows, lo.trace)
        | .ok (some _) =>
            match env.sendExcel with
            | .err => (.rFalse, lo.rows, lo.trace)
            | .ok _ => (.rTrue, lo.rows, lo.trace)

/-- `parseCategory(url, userId)` (lines 463-558) over the oracle. The early
exit when the user is already active returns `false` touching nothing
(lines 465-470). Otherwise the user is added, `this.results` is reset, the
body runs, and the `finally` (lines 551-557) deletes the user from the
active set on every exit path — the body never bypasses it, since the outer
catch swallows every throw and the finally's own logging cannot throw. The
zero-row path resolves with the sent message object; a throw that reaches
the outer catch yields `false`. -/
def parseCategory (env : Env) (userId : Nat) (active : Finset Nat)
    (results0 : List Row) : POut :=
  if userId ∈ active then ⟨.rFalse, active, results0, []⟩
  else
    let b := parseCategoryBody env
    ⟨b.1, (insert userId active).erase userId, b.2.1, b.2.2⟩

/-- Whether the reporting tail of `parseCategory` (lines 522-545) runs to
completion without a throw, for the given collected rows. -/
def reportingOk (env : Env) (rows : List Row) : Bool :=
  if rows.isEmpty then env.sendZeroRows.isOk
  else
    match env.saveExcel with
    | .err => false
    | .ok none => true
    | .ok (some _) => env.sendExcel.isOk

/-! ## Rate-limited task queue (claim C9)

Modelled from the spec: the queue implementation itself is the external
p-queue package (`new PQueue({concurrency: 2, interval: 2000})`, line 24),
whose code is not part of this repository, so the admission discipline is
taken from spec §4.1: tasks are admitted FIFO, at most 2 run concurrently,
and two starts are at least 2000 ms apart. Time is a logical Nat in
milliseconds. Each submitted task is a pair (submission time, duration);
the scheduler starts each task at the earliest instant that is at or after
its submission, at least 2000 ms after the previous start, and at which at
most one earlier task is still running. It tracks the two latest finishing
times `e1 ≥ e2` of already-started tasks: a third concurrent task is
avoided exactly by starting no earlier than `e2`. -/

/-- Modelled from the spec: FIFO scheduler of (submit, duration) tasks under
the §4.1 admission rule; returns each task's (start, end). `lastStart` is
the previous start time, `e1 ≥ e2` the two latest finishing times so far. -/
def runQueueAux : List (Nat × Nat) → Option Nat → Nat → Nat → List (Nat × Nat)
  | [], _, _, _ => []
  | (sub, dur) :: rest, lastStart, e1, e2 =>
      let s :=
        match lastStart with
        | none => max sub e2
        | some ls => max sub (max (ls + 2000) e2)
      let e := s + dur
      (s, e) :: runQueueAux rest (some s) (max e1 e) (min e1 e)

/-- Modelled from the spec: the schedule of a task list submitted to a fresh
queue. -/
def runQueue (tasks : List (Nat × Nat)) : List (Nat × Nat) :=
  runQueueAux tasks none 0 0

/-- How many scheduled tasks are running at instant `t` (started, not yet
finished). -/
def countRunning (sched : List (Nat × Nat)) (t : Nat) : Nat :=
  (sched.filter fun p => p.1 ≤ t ∧ t < p.2).length

/-! ## Occurrence counting for claim C10 -/

/-- The characters of the substring "sort=". -/
def sortPat : List Char := ['s', 'o', 'r', 't', '=']

/-- Number of positions at which "sort=" occurs. -/
def countSort : List Char → Nat
  | [] => 0
  | c :: rest => (if sortPat.isPrefixOf (c :: rest) then 1 else 0) + countSort rest

/-- A list whose first character (if any) cannot begin the tail of a
straddled "sort=" occurrence: every proper suffix of "sort=" starts with
'o', 'r', 't' or '='. -/
def headOk : List Char → Bool
  | [] => true
  | c :: _ => !(c = 'o' || c = 'r' || c = 't' || c = '=')

/-- A hole (shard, filter value, base query) is clean for the C10 count when
"sort=" does not occur in it and no straddled occurrence can continue into
it. -/
@[reducible] def cleanHole (l : List Char) : Prop :=
  countSort l = 0 ∧ headOk l = true

instance (l : List Char) : Decidable (cleanHole l) := by
  unfold cleanHole; infer_instance

/-! ## Concrete fixtures used by witnesses and counterexamples -/

/-- A resolved category for the orchestrator oracles. -/
def catFixture : ResolvedCategory :=
  ⟨"Vannaya", some "dom", "/catalog/dom/vannaya", "&sort=newly"⟩

/-- Oracle with every external call throwing. -/
def envAllErr : Env :=
  ⟨.err, fun _ => .err, fun _ => .err, fun _ => .err, fun _ => .err,
   fun _ => .err, .err, .err, .err⟩

/-- Oracle of a resolved run whose first page has no products: the loop
breaks at page 1 with zero rows and the zero-row notification succeeds. -/
def envZeroRows : Env :=
  { resolve := .ok (some catFixture)
    scrape := fun _ => .ok []
    updateLog := fun _ => .ok ()
    evirma := fun _ => .err
    sendInner := fun _ => .ok ()
    sendOuter := fun _ => .ok ()
    sendZeroRows := .ok ()
    saveExcel := .ok none
    sendExcel := .ok () }

/-- Oracle of a fully successful run: page 1 yields one product and one
usable row, page 2 is empty, and the report is saved and sent. -/
def envHappy : Env :=
  { resolve := .ok (some catFixture)
    scrape := fun p => if p = 1 then .ok [some "A"] else .ok []
    updateLog := fun _ => .ok ()
    evirma := fun _ => .ok [("a", .cval (some 5) (some 10))]
    sendInner := fun _ => .ok ()
    sendOuter := fun _ => .ok ()
    sendZeroRows := .ok ()
    saveExcel := .ok (some "f")
    sendExcel := .ok () }

/-- Oracle whose page-1 enrichment response has only a null cluster: the
filtered mapping is empty, so `queryEvirmaApi` returns the sentinel. -/
def envSentinel : Env :=
  { resolve := .ok (some catFixture)
    scrape := fun _ => .ok [some "A"]
    updateLog := fun _ => .ok ()
    evirma := fun _ => .ok [("a", .cnull)]
    sendInner := fun _ => .ok ()
    sendOuter := fun _ => .ok ()
    sendZeroRows := .ok ()
    saveExcel := .ok none
    sendExcel := .ok () }

/-- Scrape oracle answering 429 to every attempt, with working Telegram
notifications. -/
def sEnv429 : ScrapeEnv :=
  ⟨fun _ => .rate429, fun _ => .ok (), fun _ => .ok ()⟩

/-- Scrape oracle whose first attempt fails with HTTP 500 and a body. -/
def sEnv500 : ScrapeEnv :=
  ⟨fun _ => .httpErr 500 (some "oops"), fun _ => .ok (), fun _ => .ok ()⟩

/-!
# Theorems
-/

/-! ## Enrichment filtering (claims C3, C4) -/

theorem parseEvirmaResponse_eq_spec (l : List (String × CVal)) :
    parseEvirmaResponse l = l.filterMap specRowC4 := by
  unfold parseEvirmaResponse
  congr 1
  funext kd
  obtain ⟨k, cv⟩ := kd
  cases cv with
  | missing => rfl
  | cnull => rfl
  | cval pc fm =>
      cases pc with
      | none => cases fm <;> simp [specRowC4, truthyNum]
      | some p =>
          cases fm with
          | none => simp [specRowC4, truthyNum]
          | some f =>
              by_cases hp : p = 0 <;> by_cases hf : f = 0 <;>
                simp [specRowC4, truthyNum, hp, hf]

theorem filterMap_spec_filter (kws : List (String × CVal)) :
    (kws.filter fun kd => kd.2 != CVal.cnull).filterMap specRowC4 =
      kws.filterMap specRowC4 := by
  induction kws with
  | nil => rfl
  | cons kd rest ih =>
      obtain ⟨k, cv⟩ := kd
      cases cv <;> simp [List.filter_cons, List.filterMap_cons, specRowC4, ih]

theorem pageRows_eq_parse_filter (kws : List (String × CVal)) :
    pageRows kws = parseEvirmaResponse (kws.filter fun kd => kd.2 != CVal.cnull) := by
  unfold pageRows queryEvirmaFilter
  rcases h : kws.filter fun kd => kd.2 != CVal.cnull with _ | ⟨a, l⟩ <;>
    simp [h, parseEvirmaResponse]

/-- Claim C4 counterexample: a cluster with a negative `product_count` and a
negative monthly frequency — values that are not positive — is nevertheless
kept, because the code only tests JavaScript truthiness (non-zero), so the
claim's "positive-count" filtering does not hold as stated. -/
theorem enrichment_negative_kept_cex :
    pageRows [("a", CVal.cval (some (-1)) (some (-1)))] =
      [⟨"a", -1, -1⟩] ∧ ¬(0 < (-1 : Int)) := by decide

/-- Claim C4 (amended): entries whose cluster is absent or null are
discarded, and of the remainder those whose `product_count` or monthly
frequency is absent or zero (JavaScript-falsy) are discarded — non-zero
values, negative ones included, are kept; each surviving entry maps, in
response order, to its report row, and the example response yields exactly
one row. -/
theorem enrichment_filtering_amended (kws : List (String × CVal)) :
    pageRows kws = kws.filterMap specRowC4 ∧
    pageRows [("a", .cval (some 5) (some 10)), ("b", .cnull)] =
      [⟨"a", 5, 10⟩] := by
  refine ⟨?_, by decide⟩
  rw [pageRows_eq_parse_filter, parseEvirmaResponse_eq_spec, filterMap_spec_filter]

/-! ## Category resolution scenario (claim C6) -/

/-- Claim C6 counterexample: on the scenario tree and URL the resolver does
return the node named Vannaya, but its merged query is "&sort=newly" — the
appending step always writes a leading ampersand, even onto the empty base
query — not the claimed "sort=newly". -/
theorem resolver_scenario_query_cex :
    (findCategoryByUrl treeDomVannaya urlVannaya).map
        (Option.map ResolvedCategory.query) = .ok (some "&sort=newly") ∧
    ("&sort=newly" : String) ≠ "sort=newly" := by
  exact ⟨by decide, by decide⟩

/-- Claim C6 (amended): the resolver, given the scenario tree and the input
URL, returns the category named Vannaya with merged query exactly
"&sort=newly" (with the leading ampersand the code always prepends). -/
theorem resolver_scenario_amended :
    findCategoryByUrl treeDomVannaya urlVannaya =
      .ok (some ⟨"Vannaya", none, "/catalog/dom/vannaya", "&sort=newly"⟩) := by
  decide

/-! ## Flattening (claim C8) -/

mutual

theorem processNode_eq_dfs : ∀ t : JTree,
    processNode t = (dfsNodes t).filterMap nodeToCat
  | .prim => rfl
  | .arr items => by
      simpa [processNode, dfsNodes] using processList_eq_dfs items
  | .obj n s u q c => by
      cases n <;> cases u <;>
        simp [processNode, dfsNodes, nodeToCat, processList_eq_dfs c,
          List.filterMap_cons]

theorem processList_eq_dfs : ∀ ts : List JTree,
    processList ts = (dfsList ts).filterMap nodeToCat
  | [] => rfl
  | t :: ts => by
      simp [processList, dfsList, processNode_eq_dfs t, processList_eq_dfs ts,
        List.filterMap_append]

end

/-! ## Session invariants and return contract (claims C1, C2, C3) -/

/-- Claim C1: at most one active session per user with unconditional
cleanup — a call for an already-active user returns `false` changing
neither the active set nor the results, and any other call, whatever the
oracle does on any of its exit paths (success, empty result, category not
found, or a throw at any step), ends with the user's entry removed from the
active set, leaving it exactly as it was. -/
theorem parseCategory_active_invariant (env : Env) (u : Nat) (a : Finset Nat)
    (rs : List Row) :
    (u ∈ a → parseCategory env u a rs = ⟨.rFalse, a, rs, []⟩) ∧
    (u ∉ a → (parseCategory env u a rs).active = a) := by
  constructor
  · intro h
    simp [parseCategory, h]
  · intro h
    simp [parseCategory, h, Finset.erase_insert h]

/-- Witness for claim C1: a blocked call returns `false` untouched, and a
fresh call (here one whose every external step throws) leaves the active
set empty again. -/
theorem parseCategory_active_invariant_witness :
    parseCategory envAllErr 5 {5} [] = ⟨.rFalse, {5}, [], []⟩ ∧
    (parseCategory envAllErr 5 ∅ []).active = ∅ :=
  ⟨(parseCategory_active_invariant envAllErr 5 {5} []).1 (by decide),
   (parseCategory_active_invariant envAllErr 5 ∅ []).2 (by decide)⟩

/-- Claim C2 counterexample: a run whose category resolved and whose first
page has no products reaches the reporting step with zero rows; the code
then executes `return await bot.sendMessage(...)` (lines 522-528), so the
call resolves with the Telegram message object — truthy, but not the
boolean `true` the claim states. -/
theorem parseCategory_zero_rows_message_cex :
    (parseCategory envZeroRows 1 ∅ []).res = .rMsg ∧
    PRes.rMsg ≠ PRes.rTrue := by decide

theorem parseCategoryBody_char (env : Env) :
    ((parseCategoryBody env).1 = .rFalse →
      env.resolve = .err ∨ env.resolve = .ok none ∨
      (loopAux env MAX_PAGES 1 []).escaped = true ∨
      reportingOk env (loopAux env MAX_PAGES 1 []).rows = false) ∧
    (∀ cat, env.resolve = .ok (some cat) →
      (loopAux env MAX_PAGES 1 []).escaped = false →
      reportingOk env (loopAux env MAX_PAGES 1 []).rows = true →
      (parseCategoryBody env).1.truthy = true ∧
      ((loopAux env MAX_PAGES 1 []).rows.isEmpty = true →
        (parseCategoryBody env).1 = .rMsg) ∧
      ((loopAux env MAX_PAGES 1 []).rows.isEmpty = false →
        (parseCategoryBody env).1 = .rTrue)) := by
  unfold parseCategoryBody reportingOk
  cases hres : env.resolve with
  | err =>
      refine ⟨fun _ => .inl rfl, fun cat hcat => ?_⟩
      cases hcat
  | ok v =>
      cases v with
      | none =>
          refine ⟨fun _ => .inr (.inl rfl), fun cat hcat => ?_⟩
          injection hcat with h
          cases h
      | some c =>
          dsimp only
          by_cases hesc : (loopAux env MAX_PAGES 1 []).escaped
          · refine ⟨fun _ => .inr (.inr (.inl hesc)), fun cat _ hesc' => ?_⟩
            rw [hesc'] at hesc
            cases hesc
          · by_cases hemp : (loopAux env MAX_PAGES 1 []).rows.isEmpty
            · cases hz : env.sendZeroRows with
              | ok w =>
                  refine ⟨fun h => ?_, fun cat _ _ _ => ?_⟩
                  · simp [hesc, hemp] at h
                  · refine ⟨by simp [hesc, hemp, PRes.truthy], fun _ => by simp [hesc, hemp],
                      fun hemp' => ?_⟩
                    rw [hemp'] at hemp
                    cases hemp
              | err =>
                  refine ⟨fun _ => .inr (.inr (.inr ?_)), fun cat _ _ hrep => ?_⟩
                  · simp [hemp, hz, ExtRes.isOk]
                  · rw [hemp] at hrep
                    simp [hz, ExtRes.isOk] at hrep
            · cases hsv : env.saveExcel with
              | err =>
                  refine ⟨fun _ => .inr (.inr (.inr ?_)), fun cat _ _ hrep => ?_⟩
                  · simp [hemp, hsv]
                  · simp [hemp, hsv] at hrep
              | ok w =>
                  cases w with
                  | none =>
                      refine ⟨fun h => ?_, fun cat _ _ _ => ?_⟩
                      · simp [hesc, hemp] at h
                      · refine ⟨by simp [hesc, hemp, PRes.truthy],
                          fun hemp' => absurd hemp' hemp, fun _ => by simp [hesc, hemp]⟩
                  | some fp =>
                      cases hse : env.sendExcel with
                      | ok w2 =>
                          refine ⟨fun h => ?_, fun cat _ _ _ => ?_⟩
                          · simp [hesc, hemp] at h
                          · refine ⟨by simp [hesc, hemp, PRes.truthy],
                              fun hemp' => absurd hemp' hemp, fun _ => by simp [hesc, hemp]⟩
                      | err =>
                          refine ⟨fun _ => .inr (.inr (.inr ?_)),
                            fun cat _ _ hrep => ?_⟩
                          · simp [hemp, hsv, hse, ExtRes.isOk]
                          · simp [hemp, hsv, hse, ExtRes.isOk] at hrep

/-- Claim C2 (amended): the call resolves with a truthy value — `true` when
rows were exported, the zero-row notification message when none were — on
every path on which the category resolved to a non-null value and the
reporting tail completed without a throw; it resolves with `false` only
when the category is not found, resolution throws, an exception escapes the
page loop's own error notifications, or the reporting tail throws. -/
theorem parseCategory_return_contract_amended (env : Env) (u : Nat)
    (a : Finset Nat) (rs : List Row) (hu : u ∉ a) :
    ((parseCategory env u a rs).res = .rFalse →
      env.resolve = .err ∨ env.resolve = .ok none ∨
      (loopAux env MAX_PAGES 1 []).escaped = true ∨
      reportingOk env (loopAux env MAX_PAGES 1 []).rows = false) ∧
    (∀ cat, env.resolve = .ok (some cat) →
      (loopAux env MAX_PAGES 1 []).escaped = false →
      reportingOk env (loopAux env MAX_PAGES 1 []).rows = true →
      (parseCategory env u a rs).res.truthy = true ∧
      ((loopAux env MAX_PAGES 1 []).rows.isEmpty = true →
        (parseCategory env u a rs).res = .rMsg) ∧
      ((loopAux env MAX_PAGES 1 []).rows.isEmpty = false →
        (parseCategory env u a rs).res = .rTrue)) := by
  have hres : (parseCategory env u a rs).res = (parseCategoryBody env).1 := by
    simp [parseCategory, hu]
  rw [hres]
  exact parseCategoryBody_char env

/-- Witness for claim C2 (amended): a fully successful run resolves with
the boolean `true`. -/
theorem parseCategory_return_contract_witness :
    (parseCategory envHappy 7 ∅ []).res = .rTrue :=
  ((parseCategory_return_contract_amended envHappy 7 ∅ [] (by decide)).2
    catFixture rfl (by decide) (by decide)).2.2 (by decide)

/-- Claim C3 counterexample: a response whose only entry has a cluster with
zero `product_count` and zero monthly frequency has zero entries surviving
the full filtering (the entry yields no report row), yet `queryEvirmaApi`
does not return the sentinel — its own filtering only removes null
clusters — so pagination is not stopped by such a page. -/
theorem enrichment_no_sentinel_cex :
    parseEvirmaResponse [("a", CVal.cval (some 0) (some 0))] = [] ∧
    queryEvirmaFilter [("a", CVal.cval (some 0) (some 0))] =
      some [("a", CVal.cval (some 0) (some 0))] := by decide

theorem loopAux_pages_le (env : Env) (p : Nat) (kws : List (String × CVal))
    (hev : env.evirma p = .ok kws) (hsent : queryEvirmaFilter kws = none) :
    ∀ fuel page acc, page ≤ p →
      ∀ e ∈ (loopAux env fuel page acc).trace, e.pageOf ≤ p := by
  intro fuel
  induction fuel with
  | zero =>
      intro page acc _ e he
      simp [loopAux] at he
  | succ fuel ih =>
      intro page acc hpage e he
      rw [loopAux] at he
      split at he
      · -- scrape threw
        split at he <;>
          (simp only [List.mem_singleton] at he; subst he;
           simpa [Ev.pageOf] using hpage)
      · -- scrape ok
        split at he
        · split at he <;>
            (simp only [List.mem_singleton] at he; subst he;
             simpa [Ev.pageOf] using hpage)
        · split at he
          · simp only [List.mem_singleton] at he
            subst he
            simpa [Ev.pageOf] using hpage
          · split at he
            · split at he
              · simp only [List.mem_cons, List.not_mem_nil, or_false] at he
                rcases he with rfl | rfl <;> simpa [Ev.pageOf] using hpage
              · split at he <;>
                  (simp only [List.mem_cons, List.not_mem_nil, or_false] at he;
                   rcases he with rfl | rfl <;> simpa [Ev.pageOf] using hpage)
            · rename_i data hscr hlog hne kws2 hev2
              split at he
              · simp only [List.mem_cons, List.not_mem_nil, or_false] at he
                rcases he with rfl | rfl <;> simpa [Ev.pageOf] using hpage
              · rename_i f hfil
                simp only [List.mem_cons] at he
                rcases he with rfl | rfl | he
                · simpa [Ev.pageOf] using hpage
                · simpa [Ev.pageOf] using hpage
                · have hplt : page < p := by
                    rcases Nat.lt_or_ge page p with h | h
                    · exact h
                    · have : page = p := le_antisymm hpage h
                      subst this
                      rw [hev] at hev2
                      injection hev2 with h2
                      subst h2
                      rw [hsent] at hfil
                      cases hfil
                  exact ih (page + 1) _ (by omega) e he

theorem parseCategory_trace_sub (env : Env) (u : Nat) (a : Finset Nat)
    (rs : List Row) :
    (parseCategory env u a rs).trace = [] ∨
    (parseCategory env u a rs).trace = (loopAux env MAX_PAGES 1 []).trace := by
  by_cases hu : u ∈ a
  · left
    simp [parseCategory, hu]
  · have htr : (parseCategory env u a rs).trace = (parseCategoryBody env).2.2 := by
      simp [parseCategory, hu]
    rw [htr]
    unfold parseCategoryBody
    cases env.resolve with
    | err => left; rfl
    | ok v =>
        cases v with
        | none => left; rfl
        | some c =>
            right
            dsimp only
            by_cases hesc : (loopAux env MAX_PAGES 1 []).escaped
            · simp [hesc]
            · by_cases hemp : (loopAux env MAX_PAGES 1 []).rows.isEmpty
              · cases hz : env.sendZeroRows <;> simp [hesc, hemp, hz]
              · cases hsv : env.saveExcel with
                | err => simp [hesc, hemp, hsv]
                | ok w =>
                    cases w with
                    | none => simp [hesc, hemp, hsv]
                    | some fp =>
                        cases hse : env.sendExcel <;>
                          simp [hesc, hemp, hsv, hse]

/-- Claim C3 (amended): `queryEvirmaApi` returns the sentinel `null` —
distinct from a transport failure, which is a thrown error — exactly when
zero entries survive its own null-cluster removal (entries with an absent
cluster or a cluster failing the positive-count checks still count as
surviving); and when the enrichment of some page returns that sentinel, the
orchestrator stops pagination: no later page is scraped or enriched in that
run. -/
theorem emptyEnrichment_sentinel_amended (env : Env) (u : Nat) (a : Finset Nat)
    (rs : List Row) (p : Nat) (kws : List (String × CVal)) :
    (queryEvirmaFilter kws = none ↔
      kws.filter (fun kd => kd.2 != CVal.cnull) = []) ∧
    (1 ≤ p → env.evirma p = .ok kws → queryEvirmaFilter kws = none →
      ∀ q, p < q →
        Ev.scr q ∉ (parseCategory env u a rs).trace ∧
        Ev.enr q ∉ (parseCategory env u a rs).trace) := by
  constructor
  · unfold queryEvirmaFilter
    constructor
    · intro h
      rcases hf : kws.filter (fun kd => kd.2 != CVal.cnull) with _ | ⟨x, l⟩
      · exact hf
      · rw [hf] at h
        simp at h
    · intro h
      simp [h]
  · intro hp hev hsent q hq
    have hloop := loopAux_pages_le env p kws hev hsent MAX_PAGES 1 [] (by omega)
    rcases parseCategory_trace_sub env u a rs with h | h <;> rw [h]
    · simp
    · constructor <;> intro hmem <;> have hle := hloop _ hmem <;>
        simp [Ev.pageOf] at hle <;> omega

/-- Witness for claim C3 (amended): with a page-1 enrichment response whose
only cluster is null, the sentinel is returned and page 2 is neither
scraped nor enriched. -/
theorem emptyEnrichment_sentinel_witness :
    Ev.scr 2 ∉ (parseCategory envSentinel 2 ∅ []).trace ∧
    Ev.enr 2 ∉ (parseCategory envSentinel 2 ∅ []).trace :=
  (emptyEnrichment_sentinel_amended envSentinel 2 ∅ [] 1 [("a", .cnull)]).2
    (by decide) rfl (by decide) 2 (by decide)

/-! ## Filter merging (claim C7) -/

theorem appOpt_seg_eq (q label : String) (ps : List (String × String))
    (k : String) (hl : label = "&" ++ k ++ "=") :
    appOpt q label (getParam ps k) = q ++ segC7 ps k := by
  unfold appOpt getParam segC7
  subst hl
  rcases ps.lookup k with _ | v
  · simp
  · by_cases hv : v = "" <;> simp [hv, String.append_assoc]

theorem sortDefaulted_val (ps : List (String × String)) :
    (getParam ps "sort").getD "popular" = sortValC7 ps := by
  unfold getParam sortValC7
  rcases ps.lookup "sort" with _ | v
  · rfl
  · by_cases hv : v = "" <;> simp [hv]

theorem sortDefaulted_ne (ps : List (String × String)) :
    (getParam ps "sort").getD "popular" ≠ "" := by
  unfold getParam
  rcases ps.lookup "sort" with _ | v
  · decide
  · by_cases hv : v = ""
    · simp [hv]
    · simp [hv]

/-- Claim C7 counterexample: in the URL
`https://x/catalog/dom/vannaya?priceU=&sort=newly` the recognized key
`priceU` is present (with an empty value), yet the resolved query is
"&sort=newly" — the `searchParams.get("priceU") || null` coercion drops
the empty value — while the claim's reading predicts
"&priceU=&sort=newly". -/
theorem resolver_empty_param_cex :
    parseUrl urlVannayaEmptyPriceU =
      some ⟨"/catalog/dom/vannaya", [("priceU", ""), ("sort", "newly")]⟩ ∧
    (findCategoryByUrl treeDomVannaya urlVannayaEmptyPriceU).map
      (Option.map ResolvedCategory.query) = .ok (some "&sort=newly") ∧
    claimMergeQueryC7 none [("priceU", ""), ("sort", "newly")] =
      "&priceU=&sort=newly" ∧
    ("&sort=newly" : String) ≠ "&priceU=&sort=newly" := by decide

/-- Claim C7 (amended): for every base query and query-string pair list,
the merged query equals the node's base query (empty when null) with each
recognized filter key that is present **with a non-empty value** appended
as `&key=value`, in the fixed order priceU, xsubject, fbrand, fsupplier,
sort, where sort is always appended and defaults to `popular` when the
sort parameter is absent or empty. -/
theorem buildQuery_merge_order_amended (base : Option String)
    (ps : List (String × String)) :
    buildQuery base (extractFilterParams ps) = specMergeQueryC7 base ps := by
  unfold buildQuery extractFilterParams specMergeQueryC7
  dsimp only
  rw [if_pos (sortDefaulted_ne ps), sortDefaulted_val ps,
    appOpt_seg_eq _ "&priceU=" ps "priceU" (by decide),
    appOpt_seg_eq _ "&xsubject=" ps "xsubject" (by decide),
    appOpt_seg_eq _ "&fbrand=" ps "fbrand" (by decide),
    appOpt_seg_eq _ "&fsupplier=" ps "fsupplier" (by decide)]

/-! ## Rate-limited queue bounds (claim C9) -/

theorem countRunning_cons (s e t : Nat) (l : List (Nat × Nat)) :
    countRunning ((s, e) :: l) t =
      (if s ≤ t ∧ t < e then 1 else 0) + countRunning l t := by
  unfold countRunning
  rw [List.filter_cons]
  by_cases h : s ≤ t ∧ t < e <;> simp [h, Nat.add_comm]

theorem runQueueAux_count (tasks : List (Nat × Nat)) :
    ∀ ls e1 e2, e2 ≤ e1 → ∀ t,
      countRunning (runQueueAux tasks ls e1 e2) t
        + (if t < e1 then 1 else 0) + (if t < e2 then 1 else 0) ≤ 2 := by
  induction tasks with
  | nil =>
      intro ls e1 e2 h12 t
      simp only [runQueueAux, countRunning, List.filter_nil, List.length_nil]
      split_ifs <;> omega
  | cons td rest ih =>
      obtain ⟨sub, dur⟩ := td
      intro ls e1 e2 h12 t
      have key : ∀ s : Nat, e2 ≤ s →
          countRunning ((s, s + dur) ::
              runQueueAux rest (some s) (max e1 (s + dur)) (min e1 (s + dur))) t
            + (if t < e1 then 1 else 0) + (if t < e2 then 1 else 0) ≤ 2 := by
        intro s hs
        have hih := ih (some s) (max e1 (s + dur)) (min e1 (s + dur))
          (by omega) t
        rw [countRunning_cons]
        rcases le_total e1 (s + dur) with hcase | hcase
        · rw [max_eq_right hcase, min_eq_left hcase] at hih ⊢
          split_ifs at * <;> omega
        · rw [max_eq_left hcase, min_eq_right hcase] at hih ⊢
          split_ifs at * <;> omega
      cases ls with
      | none =>
          rw [runQueueAux]
          exact key _ (le_max_right _ _)
      | some l =>
          rw [runQueueAux]
          exact key _ (by omega)

theorem runQueueAux_chain (tasks : List (Nat × Nat)) :
    ∀ ls e1 e2,
      List.Chain' (fun p q => p.1 + 2000 ≤ q.1) (runQueueAux tasks ls e1 e2) ∧
      (∀ l, ls = some l →
        ∀ hd, (runQueueAux tasks ls e1 e2).head? = some hd →
          l + 2000 ≤ hd.1) := by
  induction tasks with
  | nil =>
      intro ls e1 e2
      constructor
      · simp [runQueueAux]
      · intro l _ hd hhd
        simp [runQueueAux] at hhd
  | cons td rest ih =>
      obtain ⟨sub, dur⟩ := td
      intro ls e1 e2
      cases ls with
      | none =>
          rw [runQueueAux]
          constructor
          · rw [List.chain'_cons']
            refine ⟨fun y hy => ?_, (ih (some (max sub e2)) _ _).1⟩
            rw [Option.mem_def] at hy
            exact (ih (some (max sub e2)) _ _).2 _ rfl y hy
          · intro l hls
            cases hls
      | some l =>
          rw [runQueueAux]
          constructor
          · rw [List.chain'_cons']
            refine ⟨fun y hy => ?_, (ih (some _) _ _).1⟩
            rw [Option.mem_def] at hy
            exact (ih (some _) _ _).2 _ rfl y hy
          · intro l2 hls hd hhd
            injection hls with hls'
            subst hls'
            simp only [List.head?_cons, Option.some.injEq] at hhd
            subst hhd
            simp only
            omega

/-- Claim C9 (modelled from the spec — p-queue, the queue's implementation,
is an external package): under the §4.1 admission discipline, for every
submission pattern, at most 2 scheduled tasks are running at any instant,
and the start times of any two tasks are at least 2000 ms apart. -/
theorem rateLimitedQueue_bounds (tasks : List (Nat × Nat)) (t : Nat) :
    countRunning (runQueue tasks) t ≤ 2 ∧
    (runQueue tasks).Pairwise (fun p q => p.1 + 2000 ≤ q.1) := by
  constructor
  · have h := runQueueAux_count tasks none 0 0 (le_refl 0) t
    simp only [Nat.not_lt_zero, if_false] at h
    simpa [runQueue] using h
  · haveI : IsTrans (Nat × Nat) (fun p q => p.1 + 2000 ≤ q.1) :=
      ⟨fun a b c hab hbc => by omega⟩
    rw [runQueue]
    exact List.chain'_iff_pairwise.mp (runQueueAux_chain tasks none 0 0).1

/-! ## Scrape retry policy (claim C5) -/

theorem scrapeAux_all429 (env : ScrapeEnv) (page : Nat) :
    ∀ fuel attempt,
      (∀ i, i < fuel → env.att (attempt + i) = .rate429) →
      (∀ i, i < fuel → env.send (attempt + i) = .ok ()) →
      (∀ i, i < fuel → env.edit (attempt + i) = .ok ()) →
      scrapeAux env page fuel attempt =
        (wait30Trace fuel attempt, .failExhausted page 6) := by
  intro fuel
  induction fuel with
  | zero => intro attempt _ _ _; rfl
  | succ fuel ih =>
      intro attempt hatt hsend hedit
      have h0 : env.att attempt = .rate429 := by
        simpa using hatt 0 (by omega)
      have hs0 : env.send attempt = .ok () := by
        simpa using hsend 0 (by omega)
      have he0 : env.edit attempt = .ok () := by
        simpa using hedit 0 (by omega)
      have hrest := ih (attempt + 1)
        (fun i hi => by
          have := hatt (i + 1) (by omega)
          rwa [show attempt + (i + 1) = attempt + 1 + i by omega] at this)
        (fun i hi => by
          have := hsend (i + 1) (by omega)
          rwa [show attempt + (i + 1) = attempt + 1 + i by omega] at this)
        (fun i hi => by
          have := hedit (i + 1) (by omega)
          rwa [show attempt + (i + 1) = attempt + 1 + i by omega] at this)
      rw [scrapeAux, h0, hs0, he0, hrest]
      rfl

theorem scrapeAux_non429 (env : ScrapeEnv) (page : Nat) :
    ∀ k fuel attempt, k < fuel →
      (∀ i, i < k → env.att (attempt + i) = .rate429 ∧
        env.send (attempt + i) = .ok () ∧ env.edit (attempt + i) = .ok ()) →
      ((∀ s b, env.att (attempt + k) = .httpErr s b →
        scrapeAux env page fuel attempt =
          (wait30Trace k attempt ++ [.req (attempt + k)],
           .failOther page (some s) b)) ∧
       (env.att (attempt + k) = .netErr →
        scrapeAux env page fuel attempt =
          (wait30Trace k attempt ++ [.req (attempt + k)],
           .failOther page none none))) := by
  intro k
  induction k with
  | zero =>
      intro fuel attempt hk _
      obtain ⟨fuel, rfl⟩ : ∃ f, fuel = f + 1 :=
        ⟨fuel - 1, by omega⟩
      constructor
      · intro s b hatt
        rw [scrapeAux]
        simp only [Nat.add_zero] at hatt
        rw [hatt]
        rfl
      · intro hatt
        rw [scrapeAux]
        simp only [Nat.add_zero] at hatt
        rw [hatt]
        rfl
  | succ k ih =>
      intro fuel attempt hk hpre
      obtain ⟨fuel, rfl⟩ : ∃ f, fuel = f + 1 :=
        ⟨fuel - 1, by omega⟩
      have h0 := hpre 0 (by omega)
      simp only [Nat.add_zero] at h0
      have hshift : ∀ i, attempt + 1 + i = attempt + (i + 1) := by omega
      have hrest := ih fuel (attempt + 1) (by omega)
        (fun i hi => by
          have := hpre (i + 1) (by omega)
          rwa [show attempt + (i + 1) = attempt + 1 + i by omega] at this)
      constructor
      · intro s b hatt
        rw [scrapeAux, h0.1, h0.2.1, h0.2.2]
        have hres := hrest.1 s b (by
          rwa [show attempt + 1 + k = attempt + (k + 1) by omega])
        rw [hres]
        simp [wait30Trace, show attempt + 1 + k = attempt + (k + 1) by omega]
      · intro hatt
        rw [scrapeAux, h0.1, h0.2.1, h0.2.2]
        have hres := hrest.2 (by
          rwa [show attempt + 1 + k = attempt + (k + 1) by omega])
        rw [hres]
        simp [wait30Trace, show attempt + 1 + k = attempt + (k + 1) by omega]

/-- Claim C5: the scrape retry policy. Sustained HTTP 429 responses (with
working progress notifications) produce exactly 6 attempts in total, each
retry preceded by the fixed 30-second wait, and the call then fails with
the error naming the page and the attempt count. A non-429 failure at any
attempt — another HTTP status, or a network error without a response —
fails immediately with zero further requests, and the error carries the
page number, the status when a response exists, and the body when
present. -/
theorem scrapeWbPage_retry_policy (env : ScrapeEnv) (page : Nat) :
    ((∀ i, i < 6 → env.att i = .rate429 ∧ env.send i = .ok () ∧
        env.edit i = .ok ()) →
      scrapeWbPage env page =
        ([.req 0, .wait 30000, .req 1, .wait 30000, .req 2, .wait 30000,
          .req 3, .wait 30000, .req 4, .wait 30000, .req 5, .wait 30000],
         .failExhausted page 6)) ∧
    (∀ k s b, k < 6 →
      (∀ i, i < k → env.att i = .rate429 ∧ env.send i = .ok () ∧
        env.edit i = .ok ()) →
      env.att k = .httpErr s b →
      scrapeWbPage env page =
        (wait30Trace k 0 ++ [.req k], .failOther page (some s) b)) ∧
    (∀ k, k < 6 →
      (∀ i, i < k → env.att i = .rate429 ∧ env.send i = .ok () ∧
        env.edit i = .ok ()) →
      env.att k = .netErr →
      scrapeWbPage env page =
        (wait30Trace k 0 ++ [.req k], .failOther page none none)) := by
  refine ⟨fun h => ?_, fun k s b hk hpre hatt => ?_, fun k hk hpre hatt => ?_⟩
  · have := scrapeAux_all429 env page 6 0
      (fun i hi => by simpa using (h i hi).1)
      (fun i hi => by simpa using (h i hi).2.1)
      (fun i hi => by simpa using (h i hi).2.2)
    simpa [scrapeWbPage, wait30Trace] using this
  · have := (scrapeAux_non429 env page k 6 0 hk
      (fun i hi => by simpa using hpre i hi)).1 s b (by simpa using hatt)
    simpa [scrapeWbPage] using this
  · have := (scrapeAux_non429 env page k 6 0 hk
      (fun i hi => by simpa using hpre i hi)).2 (by simpa using hatt)
    simpa [scrapeWbPage] using this

/-- Witness for claim C5: the all-429 oracle exhausts its 6 attempts, and an
immediate HTTP 500 fails after a single request with the status and body. -/
theorem scrapeWbPage_retry_policy_witness :
    scrapeWbPage sEnv429 3 =
      ([.req 0, .wait 30000, .req 1, .wait 30000, .req 2, .wait 30000,
        .req 3, .wait 30000, .req 4, .wait 30000, .req 5, .wait 30000],
       .failExhausted 3 6) ∧
    scrapeWbPage sEnv500 4 = ([.req 0], .failOther 4 (some 500) (some "oops")) :=
  ⟨(scrapeWbPage_retry_policy sEnv429 3).1 (fun i _ => ⟨rfl, rfl, rfl⟩),
   (scrapeWbPage_retry_policy sEnv500 4).2.1 0 500 (some "oops") (by omega)
     (fun i hi => absurd hi (by omega)) rfl⟩

/-- Claim C8: flattening is total, order-preserving and exactly-once — the
output of `extractCategoryData` is precisely the depth-first pre-order
enumeration of the tree's object nodes, mapped through `nodeToCat` (which
emits one category for each node carrying both a name and a url and nothing
for the rest, whose children are still enumerated). -/
theorem extractCategoryData_preorder (t : JTree) :
    extractCategoryData t = (dfsNodes t).filterMap nodeToCat := by
  cases t with
  | prim => rfl
  | arr items => simpa [extractCategoryData, dfsNodes] using processList_eq_dfs items
  | obj n s u q c => exact processNode_eq_dfs _

/-! ## The double sort parameter in scrape URLs (claim C10) -/

theorem isPrefixOf_eq_true_iff (l1 l2 : List Char) :
    l1.isPrefixOf l2 = true ↔ l1 <+: l2 := by
  exact List.isPrefixOf_iff_prefix

theorem countSort_append (x y : List Char) (hy : headOk y = true) :
    countSort (x ++ y) = countSort x + countSort y := by
  induction x with
  | nil => simp [countSort]
  | cons c rest ih =>
      show (if sortPat.isPrefixOf ((c :: rest) ++ y) then 1 else 0)
          + countSort (rest ++ y)
        = ((if sortPat.isPrefixOf (c :: rest) then 1 else 0) + countSort rest)
          + countSort y
      rw [ih]
      have hind : sortPat.isPrefixOf ((c :: rest) ++ y) =
          sortPat.isPrefixOf (c :: rest) := by
        by_cases hlen : 5 ≤ (c :: rest).length
        · by_cases hp : sortPat <+: (c :: rest)
          · rw [(isPrefixOf_eq_true_iff _ _).mpr (hp.trans (List.prefix_append _ _)),
              (isPrefixOf_eq_true_iff _ _).mpr hp]
          · have e1 : sortPat.isPrefixOf ((c :: rest) ++ y) = false := by
              rw [Bool.eq_false_iff]
              intro hT
              apply hp
              have hT' := (isPrefixOf_eq_true_iff _ _).mp hT
              rw [List.prefix_iff_eq_take] at hT' ⊢
              rwa [List.take_append_of_le_length (by simpa [sortPat] using hlen)]
                at hT'
            have e2 : sortPat.isPrefixOf (c :: rest) = false := by
              rw [Bool.eq_false_iff]
              intro hT
              exact hp ((isPrefixOf_eq_true_iff _ _).mp hT)
            rw [e1, e2]
        · have e2 : sortPat.isPrefixOf (c :: rest) = false := by
            rw [Bool.eq_false_iff]
            intro hT
            have hlen2 := ((isPrefixOf_eq_true_iff _ _).mp hT).length_le
            simp only [List.length_cons] at hlen hlen2
            simp [sortPat] at hlen2
            omega
          have e1 : sortPat.isPrefixOf ((c :: rest) ++ y) = false := by
            rw [Bool.eq_false_iff]
            intro hT
            have hpre := (isPrefixOf_eq_true_iff _ _).mp hT
            have hx : (c :: rest) <+: sortPat :=
              List.prefix_of_prefix_length_le (List.prefix_append _ _) hpre
                (by
                  have h5 : sortPat.length = 5 := rfl
                  omega)
            obtain ⟨d, hd⟩ := hx
            obtain ⟨u, hu⟩ := hpre
            rw [← hd, List.append_assoc] at hu
            have hyeq : d ++ u = y := List.append_cancel_left hu
            have hdval : d = sortPat.drop (c :: rest).length := by
              rw [← hd, List.drop_left]
            have hn : (c :: rest).length = 1 ∨ (c :: rest).length = 2 ∨
                (c :: rest).length = 3 ∨ (c :: rest).length = 4 := by
              have hpos : 1 ≤ (c :: rest).length := by simp
              omega
            rcases hn with hn | hn | hn | hn <;>
              (rw [hn] at hdval; simp only [sortPat, List.drop] at hdval;
               subst hdval; rw [← hyeq] at hy; simp [headOk] at hy)
          rw [e1, e2]
      rw [hind]
      omega

theorem headOk_append (x y : List Char) (hx : headOk x = true)
    (hy : headOk y = true) : headOk (x ++ y) = true := by
  cases x with
  | nil => simpa using hy
  | cons c l => simpa [headOk] using hx

theorem digitChar_ne (m : Nat) :
    digitChar m ≠ 's' ∧ headOk [digitChar m] = true := by
  by_cases h : m ≤ 8
  · interval_cases m <;> exact ⟨by decide, by decide⟩
  · obtain ⟨k, rfl⟩ : ∃ k, m = k + 9 := ⟨m - 9, by omega⟩
    have h9 : digitChar (k + 9) = '9' := rfl
    rw [h9]
    exact ⟨by decide, by decide⟩

theorem countSort_of_no_s (l : List Char) (h : ∀ c ∈ l, c ≠ 's') :
    countSort l = 0 := by
  induction l with
  | nil => rfl
  | cons c rest ih =>
      have hc : c ≠ 's' := h c (by simp)
      have hpre : sortPat.isPrefixOf (c :: rest) = false := by
        rw [Bool.eq_false_iff]
        intro hT
        obtain ⟨u, hu⟩ := (isPrefixOf_eq_true_iff _ _).mp hT
        simp only [sortPat, List.cons_append, List.cons.injEq] at hu
        exact hc hu.1.symm
      show (if sortPat.isPrefixOf (c :: rest) then 1 else 0) + countSort rest = 0
      rw [hpre, ih fun d hd => h d (List.mem_cons_of_mem _ hd)]
      simp

theorem natDigitsAux_digits :
    ∀ fuel n c, c ∈ natDigitsAux fuel n → ∃ m, c = digitChar m := by
  intro fuel
  induction fuel with
  | zero =>
      intro n c hc
      simp [natDigitsAux] at hc
  | succ fuel ih =>
      intro n c hc
      rw [natDigitsAux] at hc
      by_cases h : n < 10
      · rw [if_pos h] at hc
        simp at hc
        exact ⟨n, hc⟩
      · rw [if_neg h] at hc
        simp only [List.mem_append, List.mem_singleton] at hc
        rcases hc with hc | hc
        · exact ih _ _ hc
        · exact ⟨n % 10, hc⟩

theorem natDigits_clean (n : Nat) :
    countSort (natDigits n) = 0 ∧ headOk (natDigits n) = true := by
  constructor
  · apply countSort_of_no_s
    intro c hc
    obtain ⟨m, rfl⟩ := natDigitsAux_digits _ _ _ hc
    exact (digitChar_ne m).1
  · rcases hnd : natDigits n with _ | ⟨c, l⟩
    · rfl
    · have hc : c ∈ natDigits n := by rw [hnd]; simp
      obtain ⟨m, rfl⟩ := natDigitsAux_digits _ _ _ hc
      simpa [headOk] using (digitChar_ne m).2

theorem natToStr_data (n : Nat) : (natToStr n).data = natDigits n := rfl

theorem countSort_strAppend (a b : String) (hb : headOk b.data = true) :
    countSort (a ++ b).data = countSort a.data + countSort b.data := by
  rw [String.data_append]
  exact countSort_append _ _ hb

theorem headOk_strAppend (a b : String) (ha : headOk a.data = true)
    (hb : headOk b.data = true) : headOk (a ++ b).data = true := by
  rw [String.data_append]
  exact headOk_append _ _ ha hb

theorem appOpt_clean (q label : String) (v : Option String)
    (hl0 : countSort label.data = 0) (hlh : headOk label.data = true)
    (hv : ∀ s, v = some s → cleanHole s.data) :
    countSort (appOpt q label v).data = countSort q.data ∧
    (headOk q.data = true → headOk (appOpt q label v).data = true) := by
  cases v with
  | none => exact ⟨rfl, fun h => h⟩
  | some s =>
      obtain ⟨hs0, hsh⟩ := hv s rfl
      constructor
      · rw [show appOpt q label (some s) = q ++ label ++ s from rfl,
          countSort_strAppend _ _ hsh, countSort_strAppend _ _ hlh, hl0, hs0]
        omega
      · intro hq
        exact headOk_strAppend _ _ (headOk_strAppend _ _ hq hlh) hsh

theorem buildQuery_clean (base : Option String) (fp : FilterParams)
    (hb : ∀ s, base = some s → cleanHole s.data)
    (h1 : ∀ s, fp.priceU = some s → cleanHole s.data)
    (h2 : ∀ s, fp.xsubject = some s → cleanHole s.data)
    (h3 : ∀ s, fp.fbrand = some s → cleanHole s.data)
    (h4 : ∀ s, fp.fsupplier = some s → cleanHole s.data)
    (hs : cleanHole fp.sort.data) (hsne : fp.sort ≠ "") :
    countSort (buildQuery base fp).data = 1 ∧
    headOk (buildQuery base fp).data = true := by
  have hbase : countSort (base.getD "").data = 0 ∧
      headOk (base.getD "").data = true := by
    cases base with
    | none => exact ⟨by decide, by decide⟩
    | some s => exact hb s rfl
  have c1 := appOpt_clean (base.getD "") "&priceU=" fp.priceU
    (by decide) (by decide) h1
  have c2 := appOpt_clean (appOpt (base.getD "") "&priceU=" fp.priceU)
    "&xsubject=" fp.xsubject (by decide) (by decide) h2
  have c3 := appOpt_clean (appOpt (appOpt (base.getD "") "&priceU=" fp.priceU)
    "&xsubject=" fp.xsubject) "&fbrand=" fp.fbrand (by decide) (by decide) h3
  have c4 := appOpt_clean (appOpt (appOpt (appOpt (base.getD "")
    "&priceU=" fp.priceU) "&xsubject=" fp.xsubject) "&fbrand=" fp.fbrand)
    "&fsupplier=" fp.fsupplier (by decide) (by decide) h4
  have hq4c : countSort (appOpt (appOpt (appOpt (appOpt (base.getD "")
      "&priceU=" fp.priceU) "&xsubject=" fp.xsubject) "&fbrand=" fp.fbrand)
      "&fsupplier=" fp.fsupplier).data = 0 := by
    rw [c4.1, c3.1, c2.1, c1.1, hbase.1]
  have hq4h : headOk (appOpt (appOpt (appOpt (appOpt (base.getD "")
      "&priceU=" fp.priceU) "&xsubject=" fp.xsubject) "&fbrand=" fp.fbrand)
      "&fsupplier=" fp.fsupplier).data = true :=
    c4.2 (c3.2 (c2.2 (c1.2 hbase.2)))
  simp only [buildQuery]
  rw [if_pos hsne]
  obtain ⟨hs0, hsh⟩ := hs
  constructor
  · rw [countSort_strAppend _ _ hsh, countSort_strAppend _ _ (by decide),
      hq4c, hs0]
    decide
  · exact headOk_strAppend _ _ (headOk_strAppend _ _ hq4h (by decide)) hsh

/-- Claim C10: the scrape request URL always carries the fixed parameters
`appType=1&curr=rub&dest=-1257786&locale=ru`, the page number, a fixed
`sort=popular` and `spp=0` before the merged category query is appended;
since the merged query always ends with its own `&sort=` parameter, the
substring "sort=" occurs exactly twice in the URL (for filter values,
shard and base query not themselves containing or continuing "sort=") and
the user-selected or defaulted sort value is the URL's final parameter. -/
theorem buildScrapeUrl_double_sort (shard : String) (page : Nat)
    (base : Option String) (fp : FilterParams)
    (hsh : cleanHole shard.data)
    (hb : ∀ s, base = some s → cleanHole s.data)
    (h1 : ∀ s, fp.priceU = some s → cleanHole s.data)
    (h2 : ∀ s, fp.xsubject = some s → cleanHole s.data)
    (h3 : ∀ s, fp.fbrand = some s → cleanHole s.data)
    (h4 : ∀ s, fp.fsupplier = some s → cleanHole s.data)
    (hs : cleanHole fp.sort.data) (hsne : fp.sort ≠ "") :
    buildScrapeUrl shard (buildQuery base fp) page =
      "https://catalog.wb.ru/catalog/" ++ shard ++
        "/catalog?appType=1&curr=rub&dest=-1257786&locale=ru&page=" ++
        natToStr page ++ "&sort=popular&spp=0&" ++ buildQuery base fp ∧
    countSort (buildScrapeUrl shard (buildQuery base fp) page).data = 2 ∧
    ∃ A : String, buildScrapeUrl shard (buildQuery base fp) page =
      A ++ "&sort=" ++ fp.sort := by
  have hq := buildQuery_clean base fp hb h1 h2 h3 h4 hs hsne
  refine ⟨rfl, ?_, ?_⟩
  · unfold buildScrapeUrl
    rw [countSort_strAppend _ _ hq.2,
      countSort_strAppend _ _ (by decide : headOk
        ("&sort=popular&spp=0&" : String).data = true),
      countSort_strAppend _ _ (by
        rw [natToStr_data]; exact (natDigits_clean page).2),
      countSort_strAppend _ _ (by decide : headOk
        ("/catalog?appType=1&curr=rub&dest=-1257786&locale=ru&page=" :
          String).data = true),
      countSort_strAppend _ _ hsh.2,
      hq.1, hsh.1, natToStr_data, (natDigits_clean page).1]
    decide
  · refine ⟨"https://catalog.wb.ru/catalog/" ++ shard ++
      "/catalog?appType=1&curr=rub&dest=-1257786&locale=ru&page=" ++
      natToStr page ++ "&sort=popular&spp=0&" ++
      appOpt (appOpt (appOpt (appOpt (base.getD "") "&priceU=" fp.priceU)
        "&xsubject=" fp.xsubject) "&fbrand=" fp.fbrand)
        "&fsupplier=" fp.fsupplier, ?_⟩
    have hqeq : buildQuery base fp =
        appOpt (appOpt (appOpt (appOpt (base.getD "") "&priceU=" fp.priceU)
          "&xsubject=" fp.xsubject) "&fbrand=" fp.fbrand)
          "&fsupplier=" fp.fsupplier ++ "&sort=" ++ fp.sort := by
      simp only [buildQuery]
      rw [if_pos hsne]
    unfold buildScrapeUrl
    rw [hqeq]
    simp [String.append_assoc]

/-- Witness for claim C10 at a concrete shard, page, and filter set. -/
theorem buildScrapeUrl_double_sort_witness :
    countSort (buildScrapeUrl "dom"
      (buildQuery none ⟨some "100", none, none, none, "popular"⟩) 7).data = 2 :=
  (buildScrapeUrl_double_sort "dom" 7 none
    ⟨some "100", none, none, none, "popular"⟩
    (by decide)
    (fun s hsome => by cases hsome)
    (fun s hsome => by
      rw [show s = "100" from (Option.some.inj hsome).symm]
      decide)
    (fun s hsome => by cases hsome)
    (fun s hsome => by cases hsome)
    (fun s hsome => by cases hsome)
    (by decide) (by decide)).2.1

end WB
